import Mathlib

/-!
Verification of the prfect PR-description generator.

This file gives a shallow embedding of the string-processing core of the
repository: the response post-processor (`processResponse`,
`extractTitleAndBody` from OutputProcessor), the template machinery
(`loadTemplate`, `validateTemplate`, `generatePromptWithTemplate` from
TemplateLoader), the bounded diff collector (`getCommitsInfo` from
GitAnalyzer) and the no-changes gate of `PRGenerator.run`.  Strings are
modelled as Lean `String` / `List Char`; the filesystem seen by
TemplateLoader is modelled as an explicit record of query functions.
JavaScript string truthiness (empty string is falsy) is modelled by
explicit emptiness tests.
-/

set_option autoImplicit false

namespace Prfect

/-- Whitespace predicate modelling the characters trimmed by JavaScript
`String.prototype.trim` that can occur in the inputs we consider
(space, tab, newline, carriage return, vertical tab, form feed). -/
def isWs (c : Char) : Bool :=
  c = ' ' || c = '\t' || c = '\n' || c = '\r' || c = Char.ofNat 11 || c = Char.ofNat 12

/-- Model of JavaScript `trim`: drop whitespace from both ends. -/
def trimL (s : List Char) : List Char :=
  ((s.dropWhile isWs).reverse.dropWhile isWs).reverse

/-- Case-insensitive prefix test: `pat` (given in lower case) is compared
against the lowercased characters of the subject.  This models how a
case-insensitive regex literal matches at a fixed position. -/
def isPrefixCI : List Char → List Char → Bool
  | [], _ => true
  | _ :: _, [] => false
  | p :: ps, c :: cs => (c.toLower == p) && isPrefixCI ps cs

/-- The reasoning-open marker `<think>` of the `gis` regex in
`OutputProcessor.processResponse`. -/
def openTag : List Char := ['<', 't', 'h', 'i', 'n', 'k', '>']

/-- The reasoning-close marker `</think>`. -/
def closeTag : List Char := ['<', '/', 't', 'h', 'i', 'n', 'k', '>']

/-- Case-insensitive occurrence test: does `pat` match at some position? -/
def containsCI (pat : List Char) : List Char → Bool
  | [] => false
  | c :: cs => isPrefixCI pat (c :: cs) || containsCI pat cs

/-- Exact (case-sensitive) substring test, modelling JavaScript
`String.prototype.includes`. -/
def containsL (pat : List Char) : List Char → Bool
  | [] => pat.isEmpty
  | c :: cs => pat.isPrefixOf (c :: cs) || containsL pat cs

/-- Helper for overlap arguments: the pattern is non-empty and its first
character cannot be a case-insensitive match for `c`. -/
def headMismatch (pat : List Char) (c : Char) : Bool :=
  match pat with
  | [] => false
  | p :: _ => !(c.toLower == p)

/-- Scan for the first occurrence of `</think>`; return the remainder of
the text after that occurrence, or `none` when there is none.  This models
the non-greedy `.*?<\/think>` part of the regex: the match ends at the
first closing marker. -/
def dropAfterClose : List Char → Option (List Char)
  | [] => none
  | c :: cs =>
    if isPrefixCI closeTag (c :: cs) then some ((c :: cs).drop 8)
    else dropAfterClose cs

/-- Fuelled single pass of `response.replace(/<think>.*?<\/think>/gis, "")`:
at each position, when `<th ink>` matches and a closing marker exists
further right, the whole delimited span is removed and scanning resumes
after it; otherwise the character is kept.  The fuel is an upper bound on
the remaining length, so the function is structurally total. -/
def stripThinkGo : Nat → List Char → List Char
  | _, [] => []
  | 0, s => s
  | fuel + 1, c :: cs =>
    if isPrefixCI openTag (c :: cs) then
      match dropAfterClose ((c :: cs).drop 7) with
      | some rest => stripThinkGo fuel rest
      | none => c :: stripThinkGo fuel cs
    else c :: stripThinkGo fuel cs

/-- One global, left-to-right removal pass of the reasoning-marker regex. -/
def stripThink (s : List Char) : List Char := stripThinkGo s.length s

/-- Model of `OutputProcessor.processResponse`: when `showThinking` is
set the response is returned unchanged, otherwise every
`<think>...</think>` span is removed and the result is trimmed. -/
def processResponse (response : String) (showThinking : Bool) : String :=
  if showThinking then response
  else String.mk (trimL (stripThink response.data))

/-- Model of `OutputProcessor.limitLines` and of the inline
`split/slice/join` bounding in `GitAnalyzer`: split on newline. Mirrors
JavaScript `split("\n")`, in particular the empty string yields one
empty line. -/
def splitNl : List Char → List (List Char)
  | [] => [[]]
  | c :: cs =>
    match splitNl cs with
    | [] => [[]]
    | l :: ls => if c = '\n' then [] :: l :: ls else (c :: l) :: ls

/-- Model of JavaScript `Array.prototype.join("\n")`. -/
def joinNl : List (List Char) → List Char
  | [] => []
  | [l] => l
  | l :: l' :: ls => l ++ '\n' :: joinNl (l' :: ls)

/-- Number of newline-separated lines of a string. -/
def countLines (s : String) : Nat := (splitNl s.data).length

/-! ### OutputProcessor.extractTitleAndBody -/

/-- A PR title/body pair, the record returned by
`OutputProcessor.extractTitleAndBody`. -/
structure TitleBody where
  title : String
  body : String
deriving DecidableEq, Repr

/-- A line is blank when it is empty after trimming; models the
`!lines[i].trim()` tests of `extractTitleAndBody`. -/
def isBlankLine (l : List Char) : Bool := (trimL l).isEmpty

/-- The scan of `extractTitleAndBody` for the first non-blank line:
returns that line and the lines after it. -/
def scanTitle : List (List Char) → Option (List Char × List (List Char))
  | [] => none
  | l :: ls => if isBlankLine l then scanTitle ls else some (l, ls)

/-- Model of the first title replace of `extractTitleAndBody`, the
anchored pattern of one or more heading markers followed by optional
whitespace: a leading run of heading markers together with the
whitespace following it is removed; a line not starting with a heading
marker is unchanged. -/
def stripHashes (l : List Char) : List Char :=
  match l with
  | '#' :: rest => (rest.dropWhile (fun c => c = '#')).dropWhile isWs
  | _ => l

/-- The conventional-commit tags of the title regex, in alternation
order. -/
def commitTags : List (List Char) :=
  ["feat".data, "fix".data, "docs".data, "style".data, "refactor".data,
   "test".data, "chore".data]

/-- Model of the second title replace of `extractTitleAndBody`, the
anchored case-insensitive alternation of conventional-commit tags
followed by a colon and optional whitespace: when the line starts
(case-insensitively) with a tag followed by a colon, that prefix and the
whitespace after it are removed. -/
def stripCommitTag (l : List Char) : List Char :=
  match commitTags.find? (fun tag => isPrefixCI (tag ++ [':']) l) with
  | some tag => (l.drop (tag.length + 1)).dropWhile isWs
  | none => l

/-- Model of `OutputProcessor.extractTitleAndBody`: trim the message,
split into lines, take the first non-blank line as the title source
(stripping heading markers and conventional-commit tags), skip the blank
lines after it, and join and trim the rest as the body; empty results
fall back to fixed placeholders. -/
def extractTitleAndBody (prMessage : String) : TitleBody :=
  let lines := splitNl (trimL prMessage.data)
  let parts :=
    match scanTitle lines with
    | none => (([] : List Char), lines.dropWhile isBlankLine)
    | some (l, ls) =>
        (trimL (stripCommitTag (stripHashes (trimL l))), ls.dropWhile isBlankLine)
  let body := trimL (joinNl parts.2)
  { title := if parts.1.isEmpty then "Auto-generated PR" else String.mk parts.1
    body := if body.isEmpty then "No description provided" else String.mk body }

/-- Rendering of claim C2 exactly as stated, for comparison with the
code: split the text into lines, the first non-blank line with heading
markers and commit tags stripped is the title (with no fallback when the
stripped title is empty), and the body is the remaining lines after
skipping blank ones, joined but not trimmed. -/
def extractTitleAndBodyClaim (msg : String) : TitleBody :=
  let lines := splitNl msg.data
  match lines.dropWhile isBlankLine with
  | [] => { title := "Auto-generated PR", body := "No description provided" }
  | titleLine :: rest =>
      let title := stripCommitTag (stripHashes (trimL titleLine))
      let bodyJoined := joinNl (rest.dropWhile isBlankLine)
      { title := String.mk title
        body := if (trimL bodyJoined).isEmpty then "No description provided"
                else String.mk bodyJoined }

/-- Rendering of the amended claim C2: as the claim, but the input is
trimmed before splitting, the joined body is trimmed, and an empty
stripped title also falls back to the placeholder. -/
def extractTitleAndBodySpec (msg : String) : TitleBody :=
  let lines := splitNl (trimL msg.data)
  match lines.dropWhile isBlankLine with
  | [] => { title := "Auto-generated PR", body := "No description provided" }
  | titleLine :: rest =>
      let title := trimL (stripCommitTag (stripHashes (trimL titleLine)))
      let body := trimL (joinNl (rest.dropWhile isBlankLine))
      { title := if title.isEmpty then "Auto-generated PR" else String.mk title
        body := if body.isEmpty then "No description provided" else String.mk body }

/-! ### TemplateLoader -/

/-- Model of the `TemplateConfig` interface. -/
structure TemplateConfig where
  templatePath : Option String
  customTemplate : Option String

/-- JavaScript truthiness of an optional string: present and non-empty. -/
def optTruthy : Option String → Bool
  | some s => !s.data.isEmpty
  | none => false

/-- The filesystem environment queried by TemplateLoader: the working
directory, the `dirname` and `join` path operations, and the
`existsSync` / `readFileSync` calls (a failing read is `none`). -/
structure FSModel where
  cwd : String
  dirname : String → String
  joinPath : String → String → String
  pathExists : String → Bool
  readFile : String → Option String

/-- The candidate template locations `DEFAULT_TEMPLATE_PATHS`. -/
def defaultTemplatePaths : List String :=
  [".github/pull_request_template.md",
   ".github/PULL_REQUEST_TEMPLATE.md",
   "docs/pull_request_template.md",
   ".github/PULL_REQUEST_TEMPLATE/pull_request_template.md"]

/-- The bounded upward walk of `findRepositoryRoot`, with the loop
counter made explicit: at most `fuel` directories are examined, the walk
stops early at the first directory containing `.git` or when the parent
of the current directory is itself. -/
def findRepositoryRootAux (fs : FSModel) : Nat → String → Option String
  | 0, _ => none
  | fuel + 1, currentPath =>
    if fs.pathExists (fs.joinPath currentPath ".git") then some currentPath
    else
      let parentPath := fs.dirname currentPath
      if parentPath = currentPath then none
      else findRepositoryRootAux fs fuel parentPath

/-- Model of `TemplateLoader.findRepositoryRoot` started at the working
directory with the hop cap of 10 levels. -/
def findRepositoryRoot (fs : FSModel) : Option String :=
  findRepositoryRootAux fs 10 fs.cwd

/-- Test for an absolute path, modelling `templatePath.startsWith("/")`. -/
def startsWithSlash (p : String) : Bool :=
  match p.data with
  | '/' :: _ => true
  | _ => false

/-- Model of `TemplateLoader.resolveTemplatePath`. -/
def resolveTemplatePath (fs : FSModel) (templatePath : String) : String :=
  if startsWithSlash templatePath then templatePath
  else
    match findRepositoryRoot fs with
    | some repoRoot => fs.joinPath repoRoot templatePath
    | none => fs.joinPath fs.cwd templatePath

/-- Model of `TemplateLoader.loadFromPath`: resolve the path, then fail
when the file does not exist or cannot be read (the try/catch rethrows
either failure as a hard error). -/
def loadFromPath (fs : FSModel) (templatePath : String) : Except String String :=
  let absolutePath := resolveTemplatePath fs templatePath
  if fs.pathExists absolutePath then
    match fs.readFile absolutePath with
    | some content => Except.ok content
    | none => Except.error ("Failed to load template from " ++ templatePath ++ ": read failure")
  else
    Except.error ("Failed to load template from " ++ templatePath
      ++ ": Template file not found: " ++ absolutePath)

/-- The candidate scan of `findGitHubTemplate`: return the first
existing, readable file among the candidates; an unreadable existing
file is skipped. -/
def searchTemplatePaths (fs : FSModel) (repoRoot : String) : List String → Option String
  | [] => none
  | p :: ps =>
    if fs.pathExists (fs.joinPath repoRoot p) then
      match fs.readFile (fs.joinPath repoRoot p) with
      | some content => some content
      | none => searchTemplatePaths fs repoRoot ps
    else searchTemplatePaths fs repoRoot ps

/-- Model of `TemplateLoader.findGitHubTemplate`. -/
def findGitHubTemplate (fs : FSModel) : Option String :=
  match findRepositoryRoot fs with
  | none => none
  | some repoRoot => searchTemplatePaths fs repoRoot defaultTemplatePaths

/-- The hard-coded built-in default template of
`TemplateLoader.getDefaultTemplate`. -/
def getDefaultTemplate : String :=
  "## Summary\n[Brief description of what this PR accomplishes]\n\n## Type of Change\n- [ ] Bug fix (non-breaking change which fixes an issue)\n- [ ] New feature (non-breaking change which adds functionality)\n- [ ] Breaking change (fix or feature that would cause existing functionality to not work as expected)\n- [ ] Documentation update\n- [ ] Configuration change\n- [ ] Test improvement\n- [ ] Code refactoring\n\n## Overview\n[A brief 1-3 sentence synopsis of the work]\n\n## Key Changes\n[Maximum 5 bullet points of the most important changes]\n- \n- \n- \n\n## How has this been tested?\n- [ ] Unit tests pass\n- [ ] Manual testing completed\n- [ ] Edge cases considered\n\n## Breaking Changes\n[Only include if there are breaking changes]\n\n## Testing\n[Include if applicable, describe how the changes were tested, any new tests added, etc.]"

/-- Model of `TemplateLoader.loadTemplate`: explicit path first (a
truthy path always goes to `loadFromPath`, whose failure is a hard
error), then inline content, then the candidate scan, then the built-in
default. -/
def loadTemplate (fs : FSModel) (config : TemplateConfig) : Except String String :=
  if optTruthy config.templatePath then
    loadFromPath fs (config.templatePath.getD "")
  else if optTruthy config.customTemplate then
    Except.ok (config.customTemplate.getD "")
  else
    match findGitHubTemplate fs with
    | some foundTemplate => Except.ok foundTemplate
    | none => Except.ok getDefaultTemplate

/-! ### TemplateLoader.validateTemplate -/

/-- The result record of `TemplateLoader.validateTemplate`. -/
structure ValidationResult where
  valid : Bool
  issues : List String
deriving DecidableEq, Repr

/-- The issue text for an empty template. -/
def templateEmptyMsg : String := "Template is empty"

/-- The issue text for an over-long template. -/
def templateTooLongMsg : String := "Template is too long (max 10,000 characters)"

/-- The issue text for a template without common sections. -/
def templateSectionsMsg : String :=
  "Template should include common sections like Summary, Overview, or Changes"

/-- The keywords looked for by the section check. -/
def commonSections : List String := ["summary", "overview", "changes"]

/-- Model of `TemplateLoader.validateTemplate`: the three issues are
pushed in order, each under its own independent condition, and `valid`
holds exactly when no issue was pushed. -/
def validateTemplate (template : String) : ValidationResult :=
  let issues : List String :=
    (if template.data.isEmpty || (trimL template.data).isEmpty
      then [templateEmptyMsg] else [])
    ++ (if 10000 < template.length then [templateTooLongMsg] else [])
    ++ (if !(commonSections.any fun sec =>
              containsL sec.data (template.data.map Char.toLower))
        then [templateSectionsMsg] else [])
  { valid := issues.isEmpty, issues := issues }

/-! ### TemplateLoader.generatePromptWithTemplate -/

/-- The options record of `generatePromptWithTemplate`. -/
structure PromptOptions where
  noEmojis : Bool
  context : Option String

/-- The fixed preamble of the prompt, up to and including the template
heading. -/
def promptIntro : String :=
  "You are a senior software engineer reviewing code changes for a pull request.\n\nBased on the following git information, generate a pull request description using the provided template structure:\n\nTEMPLATE STRUCTURE TO FOLLOW:\n"

/-- The fixed instruction block of the prompt (before the optional
no-emoji sentence). -/
def promptInstr : String :=
  "\n\nINSTRUCTIONS:\n- Follow the template structure exactly\n- Replace placeholder text with actual content based on the git analysis\n- Fill in checkboxes appropriately based on the changes\n- Keep the tone professional but concise\n- Focus on the business value and technical changes\n- Maximum 1000 words total\n- Do not use placeholder text like \"[Description]\" - write the actual content"

/-- The sentence appended when emojis are suppressed. -/
def noEmojiSentence : String := "\n- Do not use any emojis in the response"

/-- The fixed closing line of the prompt. -/
def promptTail : String := "\n\nGenerate the PR description now:"

/-- The additional-context section inserted for a truthy context. -/
def contextSectionOf (ctx : String) : String :=
  "\n\nADDITIONAL CONTEXT:\n" ++ ctx
    ++ "\n\nConsider this additional context when generating the PR description."

/-- The diff record built by `GitAnalyzer.getCommitsInfo` (the
`CommitInfo` interface). -/
structure CommitInfo where
  messages : String
  fileChanges : String
  diffStats : String
  codeSample : String
deriving DecidableEq, Repr

/-- The part of the prompt before the optional context section: the
preamble, the template verbatim under its heading, the branch names, and
the four diff fields under their fixed headings in fixed order. -/
def promptHeader (template : String) (commitInfo : CommitInfo)
    (sourceBranch targetBranch : String) : String :=
  promptIntro ++ template
    ++ "\n\nBRANCH INFO:\n- Source branch: " ++ sourceBranch
    ++ "\n- Target branch: " ++ targetBranch
    ++ "\n\nGIT ANALYSIS:\n=== COMMIT MESSAGES ===\n" ++ commitInfo.messages
    ++ "\n\n=== FILE CHANGES SUMMARY ===\n" ++ commitInfo.fileChanges
    ++ "\n\n=== DIFF STATISTICS ===\n" ++ commitInfo.diffStats
    ++ "\n\n=== SAMPLE CODE CHANGES ===\n" ++ commitInfo.codeSample

/-- Model of `TemplateLoader.generatePromptWithTemplate`: one template
literal with the template, branch names and the four diff fields
interpolated, the context section spliced in when the context option is
truthy, and the no-emoji sentence spliced in when `noEmojis` is set. -/
def generatePromptWithTemplate (template : String) (commitInfo : CommitInfo)
    (sourceBranch targetBranch : String) (options : PromptOptions) : String :=
  let contextSection :=
    match options.context with
    | some ctx => if !ctx.data.isEmpty then contextSectionOf ctx else ""
    | none => ""
  promptIntro ++ template
    ++ "\n\nBRANCH INFO:\n- Source branch: " ++ sourceBranch
    ++ "\n- Target branch: " ++ targetBranch
    ++ "\n\nGIT ANALYSIS:\n=== COMMIT MESSAGES ===\n" ++ commitInfo.messages
    ++ "\n\n=== FILE CHANGES SUMMARY ===\n" ++ commitInfo.fileChanges
    ++ "\n\n=== DIFF STATISTICS ===\n" ++ commitInfo.diffStats
    ++ "\n\n=== SAMPLE CODE CHANGES ===\n" ++ commitInfo.codeSample
    ++ contextSection
    ++ promptInstr
    ++ (if options.noEmojis then noEmojiSentence else "")
    ++ promptTail

/-! ### GitAnalyzer.getCommitsInfo and the run gate -/

/-- Model of the pure part of `GitAnalyzer.getCommitsInfo`: each of the
four git commands either produced (trimmed) output or failed (`none`),
in which case the fixed fallback text is used; the file-change list is
bounded to its first 20 lines and the code sample to its first 100
lines by split/slice/join. -/
def getCommitsInfo (messagesRes changesRes statsRes diffRes : Option String) : CommitInfo :=
  { messages :=
      match messagesRes with
      | some m => m
      | none => "No commit messages available"
    fileChanges :=
      match changesRes with
      | some changes => String.mk (joinNl ((splitNl changes.data).take 20))
      | none => "No file changes detected"
    diffStats :=
      match statsRes with
      | some d => d
      | none => "No diff statistics available"
    codeSample :=
      match diffRes with
      | some diff => String.mk (joinNl ((splitNl diff.data).take 100))
      | none => "No code changes available" }

/-- Model of the no-changes gate of `PRGenerator.run`: after collecting
the diff, the run aborts exactly when both the commit messages and the
file changes are empty (JavaScript falsy) strings. -/
def runDiffGate (commitInfo : CommitInfo) (sourceBranch targetBranch : String) :
    Except String CommitInfo :=
  if commitInfo.messages.data.isEmpty && commitInfo.fileChanges.data.isEmpty then
    Except.error ("No commits found between " ++ targetBranch ++ " and " ++ sourceBranch)
  else Except.ok commitInfo

/-- The run slice from diff collection to prompt composition: the gate
followed by `generatePromptWithTemplate` on the surviving diff. -/
def runPromptStage (template : String) (commitInfo : CommitInfo)
    (sourceBranch targetBranch : String) (options : PromptOptions) :
    Except String String :=
  match runDiffGate commitInfo sourceBranch targetBranch with
  | Except.error e => Except.error e
  | Except.ok info =>
      Except.ok (generatePromptWithTemplate template info sourceBranch targetBranch options)

/-- Iterated parent directory, for stating which ancestor the root walk
returns. -/
def parentIter (fs : FSModel) : Nat → String → String
  | 0, p => p
  | k + 1, p => parentIter fs k (fs.dirname p)

/-- A concrete filesystem with no repository root and no readable files,
used as a witness environment. -/
def fsNone : FSModel :=
  { cwd := "/work/dir"
    dirname := fun _ => "/"
    joinPath := fun a b => a ++ "/" ++ b
    pathExists := fun _ => false
    readFile := fun _ => none }

/-- A 10001-character template, exceeding the documented cap. -/
def xBig : String := String.mk (List.replicate 10001 'x')

/-! ### Lemmas on the case-insensitive scanner -/

theorem isPrefixCI_append_drop :
    ∀ (a : List Char) (pat b : List Char), isPrefixCI pat (a ++ b) = true →
      isPrefixCI (pat.drop a.length) b = true := by
  intro a
  induction a with
  | nil => intro pat b h; simpa using h
  | cons c a' ih =>
    intro pat b h
    cases pat with
    | nil => simp [isPrefixCI]
    | cons p ps =>
      simp only [List.cons_append, isPrefixCI, Bool.and_eq_true] at h
      simpa [List.drop_succ_cons] using ih ps b h.2

theorem isPrefixCI_of_append :
    ∀ (pat a : List Char) (b : List Char), isPrefixCI pat (a ++ b) = true →
      pat.length ≤ a.length → isPrefixCI pat a = true := by
  intro pat
  induction pat with
  | nil => intro a b _ _; simp [isPrefixCI]
  | cons p ps ih =>
    intro a b h hlen
    cases a with
    | nil => simp at hlen
    | cons c a' =>
      simp only [List.cons_append, isPrefixCI, Bool.and_eq_true] at h
      simp only [List.length_cons, Nat.succ_le_succ_iff] at hlen
      simp only [isPrefixCI, Bool.and_eq_true]
      exact ⟨h.1, ih a' b h.2 hlen⟩

theorem isPrefixCI_false_of_headMismatch (pat : List Char) (c : Char) (u : List Char)
    (h : headMismatch pat c = true) : isPrefixCI pat (c :: u) = false := by
  cases pat with
  | nil => simp [headMismatch] at h
  | cons p ps =>
    simp only [headMismatch, Bool.not_eq_true'] at h
    simp [isPrefixCI, h]

theorem headMismatch_openTag_drop :
    ∀ k, k < 7 → 1 ≤ k → headMismatch (openTag.drop k) '<' = true := by decide

theorem headMismatch_closeTag_drop :
    ∀ k, k < 8 → 1 ≤ k → headMismatch (closeTag.drop k) '<' = true := by decide

theorem openTag_self (r : List Char) : isPrefixCI openTag (openTag ++ r) = true := by
  simp only [openTag, List.cons_append, List.nil_append, isPrefixCI, Bool.and_true]
  decide

theorem closeTag_self (r : List Char) : isPrefixCI closeTag (closeTag ++ r) = true := by
  simp only [closeTag, List.cons_append, List.nil_append, isPrefixCI, Bool.and_true]
  decide

theorem span_open_rev (c : Char) (a u : List Char)
    (h : isPrefixCI openTag ((c :: a) ++ '<' :: u) = true) :
    isPrefixCI openTag (c :: a) = true := by
  rcases le_or_lt openTag.length (c :: a).length with hle | hlt
  · exact isPrefixCI_of_append _ _ _ h hle
  · exfalso
    have h2 := isPrefixCI_append_drop (c :: a) openTag ('<' :: u) h
    have hm : headMismatch (openTag.drop (c :: a).length) '<' = true :=
      headMismatch_openTag_drop _ (by simpa [openTag] using hlt) (by simp)
    rw [isPrefixCI_false_of_headMismatch _ _ _ hm] at h2
    exact Bool.false_ne_true h2

theorem span_close_rev (c : Char) (a u : List Char)
    (h : isPrefixCI closeTag ((c :: a) ++ '<' :: u) = true) :
    isPrefixCI closeTag (c :: a) = true := by
  rcases le_or_lt closeTag.length (c :: a).length with hle | hlt
  · exact isPrefixCI_of_append _ _ _ h hle
  · exfalso
    have h2 := isPrefixCI_append_drop (c :: a) closeTag ('<' :: u) h
    have hm : headMismatch (closeTag.drop (c :: a).length) '<' = true :=
      headMismatch_closeTag_drop _ (by simpa [closeTag] using hlt) (by simp)
    rw [isPrefixCI_false_of_headMismatch _ _ _ hm] at h2
    exact Bool.false_ne_true h2

theorem span_open (c : Char) (a u : List Char)
    (h : isPrefixCI openTag (c :: a) = false) :
    isPrefixCI openTag ((c :: a) ++ '<' :: u) = false := by
  cases hb : isPrefixCI openTag ((c :: a) ++ '<' :: u) with
  | false => rfl
  | true => exact absurd (span_open_rev c a u hb) (by simp [h])

theorem span_close (c : Char) (a u : List Char)
    (h : isPrefixCI closeTag (c :: a) = false) :
    isPrefixCI closeTag ((c :: a) ++ '<' :: u) = false := by
  cases hb : isPrefixCI closeTag ((c :: a) ++ '<' :: u) with
  | false => rfl
  | true => exact absurd (span_close_rev c a u hb) (by simp [h])

theorem containsCI_cons_false {pat : List Char} {c : Char} {cs : List Char}
    (h : containsCI pat (c :: cs) = false) :
    isPrefixCI pat (c :: cs) = false ∧ containsCI pat cs = false := by
  simpa [containsCI, Bool.or_eq_false_iff] using h

theorem containsCI_tail_drop {pat : List Char} :
    ∀ (n : Nat) (s : List Char), containsCI pat s = false →
      containsCI pat (s.drop n) = false := by
  intro n
  induction n with
  | zero => intro s h; simpa using h
  | succ n ih =>
    intro s h
    cases s with
    | nil => simpa using h
    | cons c cs =>
      have := (containsCI_cons_false h).2
      simpa [List.drop_succ_cons] using ih cs this

/-! ### Lemmas on dropAfterClose and stripThink -/

theorem dropAfterClose_length :
    ∀ (s r : List Char), dropAfterClose s = some r → r.length ≤ s.length := by
  intro s
  induction s with
  | nil => intro r h; simp [dropAfterClose] at h
  | cons c cs ih =>
    intro r h
    by_cases hp : isPrefixCI closeTag (c :: cs) = true
    · simp only [dropAfterClose, hp, if_true, Option.some.injEq] at h
      subst h
      simpa using Nat.sub_le (c :: cs).length 8
    · simp only [dropAfterClose, hp, if_false] at h
      exact Nat.le_trans (ih r h) (by simp)

theorem dropAfterClose_none :
    ∀ (s : List Char), containsCI closeTag s = false → dropAfterClose s = none := by
  intro s
  induction s with
  | nil => intro _; rfl
  | cons c cs ih =>
    intro h
    obtain ⟨h1, h2⟩ := containsCI_cons_false h
    simp only [dropAfterClose, h1, if_false]
    exact ih h2

theorem dropAfterClose_append :
    ∀ (x b : List Char), containsCI closeTag x = false →
      dropAfterClose (x ++ closeTag ++ b) = some b := by
  intro x
  induction x with
  | nil =>
    intro b _
    have h1 : isPrefixCI closeTag ('<' :: '/' :: 't' :: 'h' :: 'i' :: 'n' :: 'k' :: '>' :: b) = true := by
      simpa [closeTag] using closeTag_self b
    show dropAfterClose (([] : List Char) ++ closeTag ++ b) = some b
    simp only [List.nil_append, closeTag, List.cons_append]
    simp [dropAfterClose, h1]
  | cons c x' ih =>
    intro b h
    obtain ⟨h1, h2⟩ := containsCI_cons_false h
    have hspan : isPrefixCI closeTag ((c :: x') ++ closeTag ++ b) = false := by
      have : (c :: x') ++ closeTag ++ b = (c :: x') ++ '<' :: ('/' :: 't' :: 'h' :: 'i' :: 'n' :: 'k' :: '>' :: b) := by
        simp [closeTag]
      rw [this]
      exact span_close c x' _ h1
    have := ih b h2
    simp only [List.cons_append] at hspan ⊢
    simp only [dropAfterClose, hspan, if_false]
    simpa using this

theorem stripThinkGo_congr :
    ∀ (f1 f2 : Nat) (s : List Char), s.length ≤ f1 → s.length ≤ f2 →
      stripThinkGo f1 s = stripThinkGo f2 s := by
  intro f1
  induction f1 with
  | zero =>
    intro f2 s h1 _
    have : s = [] := by
      cases s with
      | nil => rfl
      | cons c cs => simp at h1
    subst this
    cases f2 <;> rfl
  | succ f1 ih =>
    intro f2 s h1 h2
    cases s with
    | nil => cases f2 <;> rfl
    | cons c cs =>
      cases f2 with
      | zero => simp at h2
      | succ f2 =>
        simp only [List.length_cons, Nat.succ_le_succ_iff] at h1 h2
        cases hp : isPrefixCI openTag (c :: cs) with
        | true =>
          cases hd : dropAfterClose ((c :: cs).drop 7) with
          | none =>
            simp only [stripThinkGo, hp, if_true, hd]
            rw [ih f2 cs h1 h2]
          | some rest =>
            have hr : rest.length ≤ cs.length := by
              have := dropAfterClose_length _ _ hd
              simp only [List.length_drop, List.length_cons] at this
              omega
            simp only [stripThinkGo, hp, if_true, hd]
            exact ih f2 rest (Nat.le_trans hr h1) (Nat.le_trans hr h2)
        | false =>
          simp only [stripThinkGo, hp]
          simp only [Bool.false_eq_true, if_false]
          rw [ih f2 cs h1 h2]

theorem stripThink_nil : stripThink [] = [] := rfl

theorem stripThink_cons_pos (c : Char) (cs rest : List Char)
    (hp : isPrefixCI openTag (c :: cs) = true)
    (hd : dropAfterClose ((c :: cs).drop 7) = some rest) :
    stripThink (c :: cs) = stripThink rest := by
  have hr : rest.length ≤ cs.length := by
    have := dropAfterClose_length _ _ hd
    simp only [List.length_drop, List.length_cons] at this
    omega
  show stripThinkGo (c :: cs).length (c :: cs) = stripThink rest
  simp only [List.length_cons, stripThinkGo, hp, if_true, hd]
  exact stripThinkGo_congr cs.length rest.length rest hr (Nat.le_refl _)

theorem stripThink_cons_noclose (c : Char) (cs : List Char)
    (hp : isPrefixCI openTag (c :: cs) = true)
    (hd : dropAfterClose ((c :: cs).drop 7) = none) :
    stripThink (c :: cs) = c :: stripThink cs := by
  show stripThinkGo (c :: cs).length (c :: cs) = c :: stripThink cs
  simp only [List.length_cons, stripThinkGo, hp, if_true, hd, stripThink]

theorem stripThink_cons_neg (c : Char) (cs : List Char)
    (hp : isPrefixCI openTag (c :: cs) = false) :
    stripThink (c :: cs) = c :: stripThink cs := by
  show stripThinkGo (c :: cs).length (c :: cs) = c :: stripThink cs
  simp only [List.length_cons, stripThinkGo, hp, Bool.false_eq_true, if_false, stripThink]

theorem stripThink_removes :
    ∀ (a x b : List Char), containsCI openTag a = false →
      containsCI closeTag x = false →
      stripThink (a ++ openTag ++ x ++ closeTag ++ b) = a ++ stripThink b := by
  intro a
  induction a with
  | nil =>
    intro x b _ hx
    simp only [List.nil_append]
    have hdrop : (openTag ++ (x ++ (closeTag ++ b))).drop 7 = x ++ (closeTag ++ b) := by
      simp [openTag]
    have hpos : isPrefixCI openTag (openTag ++ (x ++ (closeTag ++ b))) = true :=
      openTag_self _
    have hsome : dropAfterClose ((openTag ++ (x ++ (closeTag ++ b))).drop 7) = some b := by
      rw [hdrop]
      have := dropAfterClose_append x b hx
      simpa [List.append_assoc] using this
    have hshape : openTag ++ (x ++ (closeTag ++ b)) =
        '<' :: ('t' :: 'h' :: 'i' :: 'n' :: 'k' :: '>' :: (x ++ (closeTag ++ b))) := by
      simp [openTag]
    rw [List.append_assoc, List.append_assoc]
    rw [hshape] at hpos hsome ⊢
    exact stripThink_cons_pos _ _ _ hpos hsome
  | cons c a' ih =>
    intro x b ha hx
    obtain ⟨h1, h2⟩ := containsCI_cons_false ha
    have hspan : isPrefixCI openTag (c :: (a' ++ (openTag ++ (x ++ (closeTag ++ b))))) = false := by
      have : (c :: a') ++ '<' :: ('t' :: 'h' :: 'i' :: 'n' :: 'k' :: '>' :: (x ++ (closeTag ++ b))) =
          c :: (a' ++ (openTag ++ (x ++ (closeTag ++ b)))) := by
        simp [openTag]
      rw [← this]
      exact span_open c a' _ h1
    have := ih x b h2 hx
    simp only [List.append_assoc] at this ⊢
    simp only [List.cons_append]
    rw [stripThink_cons_neg _ _ hspan, this]

theorem stripThink_id_of_noClose :
    ∀ (s : List Char), containsCI closeTag s = false → stripThink s = s := by
  intro s
  induction s with
  | nil => intro _; rfl
  | cons c cs ih =>
    intro h
    obtain ⟨_, h2⟩ := containsCI_cons_false h
    by_cases hp : isPrefixCI openTag (c :: cs) = true
    · have hnone : dropAfterClose ((c :: cs).drop 7) = none :=
        dropAfterClose_none _ (containsCI_tail_drop 7 _ h)
      rw [stripThink_cons_noclose c cs hp hnone, ih h2]
    · rw [stripThink_cons_neg c cs (by simpa using hp), ih h2]

/-! ### Lemmas on exact substring containment -/

theorem isPrefixOf_append_self :
    ∀ (l r : List Char), l.isPrefixOf (l ++ r) = true := by
  intro l
  induction l with
  | nil => intro r; simp [List.isPrefixOf]
  | cons c l ih => intro r; simp [List.isPrefixOf, ih r]

theorem containsL_nil_pat : ∀ (s : List Char), containsL [] s = true := by
  intro s
  cases s with
  | nil => rfl
  | cons c cs => simp [containsL, List.isPrefixOf]

theorem containsL_self_append (pat b : List Char) :
    containsL pat (pat ++ b) = true := by
  cases pat with
  | nil => simpa using containsL_nil_pat b
  | cons p ps =>
    have h1 : (p :: ps).isPrefixOf ((p :: ps) ++ b) = true :=
      isPrefixOf_append_self (p :: ps) b
    show ((p :: ps).isPrefixOf ((p :: ps) ++ b) || containsL (p :: ps) (ps ++ b)) = true
    rw [h1]
    simp

theorem containsL_append_left :
    ∀ (a pat s : List Char), containsL pat s = true → containsL pat (a ++ s) = true := by
  intro a
  induction a with
  | nil => intro pat s h; simpa using h
  | cons c a' ih =>
    intro pat s h
    show (pat.isPrefixOf ((c :: a') ++ s) || containsL pat (a' ++ s)) = true
    rw [ih pat s h]
    simp

theorem containsL_middle (pat a b : List Char) :
    containsL pat (a ++ (pat ++ b)) = true :=
  containsL_append_left a pat (pat ++ b) (containsL_self_append pat b)

theorem string_data_append (a b : String) : (a ++ b).data = a.data ++ b.data := rfl

/-! ### Lemmas on splitNl and joinNl -/

theorem splitNl_ne_nil : ∀ (s : List Char), splitNl s ≠ [] := by
  intro s
  cases s with
  | nil => simp [splitNl]
  | cons c cs =>
    simp only [splitNl]
    cases splitNl cs with
    | nil => simp
    | cons l ls =>
      by_cases h : c = '\n' <;> simp [h]

theorem splitNl_no_newline :
    ∀ (s l : List Char), l ∈ splitNl s → '\n' ∉ l := by
  intro s
  induction s with
  | nil =>
    intro l hl
    simp only [splitNl, List.mem_singleton] at hl
    subst hl
    simp
  | cons c cs ih =>
    intro l hl
    simp only [splitNl] at hl
    cases hsp : splitNl cs with
    | nil => exact absurd hsp (splitNl_ne_nil cs)
    | cons L Ls =>
      rw [hsp] at hl
      by_cases hc : c = '\n'
      · simp only [hc, if_true] at hl
        rcases List.mem_cons.mp hl with h | h
        · subst h; simp
        · exact ih l (hsp ▸ h)
      · simp only [hc, if_false] at hl
        rcases List.mem_cons.mp hl with h | h
        · subst h
          intro hmem
          rcases List.mem_cons.mp hmem with h' | h'
          · exact hc h'.symm
          · exact ih L (hsp ▸ List.mem_cons_self L Ls) h'
        · exact ih l (hsp ▸ List.mem_cons.mpr (Or.inr h))

theorem splitNl_of_no_newline :
    ∀ (l : List Char), '\n' ∉ l → splitNl l = [l] := by
  intro l
  induction l with
  | nil => intro _; rfl
  | cons c cs ih =>
    intro h
    have hc : ¬ c = '\n' := fun he => h (by simp [he])
    have hcs : '\n' ∉ cs := fun hm => h (List.mem_cons.mpr (Or.inr hm))
    simp only [splitNl, ih hcs, hc, if_false]

theorem splitNl_append_newline :
    ∀ (l t : List Char), '\n' ∉ l → splitNl (l ++ '\n' :: t) = l :: splitNl t := by
  intro l
  induction l with
  | nil =>
    intro t _
    simp only [List.nil_append, splitNl]
    cases hsp : splitNl t with
    | nil => exact absurd hsp (splitNl_ne_nil t)
    | cons L Ls => simp
  | cons c cs ih =>
    intro t h
    have hc : ¬ c = '\n' := fun he => h (by simp [he])
    have hcs : '\n' ∉ cs := fun hm => h (List.mem_cons.mpr (Or.inr hm))
    show splitNl (c :: (cs ++ '\n' :: t)) = (c :: cs) :: splitNl t
    rw [show splitNl (c :: (cs ++ '\n' :: t)) =
        (match splitNl (cs ++ '\n' :: t) with
          | [] => [[]]
          | l :: ls => if c = '\n' then [] :: l :: ls else (c :: l) :: ls) from rfl,
      ih t hcs]
    simp [hc]

theorem joinNl_cons_cons (l l' : List Char) (ls : List (List Char)) :
    joinNl (l :: l' :: ls) = l ++ '\n' :: joinNl (l' :: ls) := rfl

theorem splitNl_joinNl :
    ∀ (ls : List (List Char)), ls ≠ [] → (∀ l ∈ ls, '\n' ∉ l) →
      splitNl (joinNl ls) = ls := by
  intro ls
  induction ls with
  | nil => intro h _; exact absurd rfl h
  | cons l ls ih =>
    intro _ hnl
    cases ls with
    | nil =>
      simp only [joinNl]
      exact splitNl_of_no_newline l (hnl l (List.mem_cons_self _ _))
    | cons l' ls' =>
      rw [joinNl_cons_cons,
        splitNl_append_newline l _ (hnl l (List.mem_cons_self _ _)),
        ih (by simp) (fun x hx => hnl x (List.mem_cons.mpr (Or.inr hx)))]

theorem countLines_le_of_take (s : List Char) (n : Nat) (hn : 0 < n) :
    (splitNl (joinNl ((splitNl s).take n))).length ≤ n := by
  have hne : (splitNl s).take n ≠ [] := by
    rw [Ne, List.take_eq_nil_iff]
    push_neg
    constructor
    · omega
    · exact splitNl_ne_nil s
  have hnl : ∀ l ∈ (splitNl s).take n, '\n' ∉ l := fun l hl =>
    splitNl_no_newline s l (List.take_subset n (splitNl s) hl)
  rw [splitNl_joinNl _ hne hnl]
  calc ((splitNl s).take n).length = min n (splitNl s).length := List.length_take n _
    _ ≤ n := Nat.min_le_left _ _

/-! ### Lemmas on the title scan -/

theorem scanTitle_eq :
    ∀ (lines : List (List Char)),
      scanTitle lines =
        match lines.dropWhile isBlankLine with
        | [] => none
        | l :: ls => some (l, ls) := by
  intro lines
  induction lines with
  | nil => rfl
  | cons l ls ih =>
    by_cases h : isBlankLine l = true
    · simp only [scanTitle, h, if_true, List.dropWhile_cons, ih]
    · have h' : isBlankLine l = false := by simpa using h
      simp only [scanTitle, h', List.dropWhile_cons, Bool.false_eq_true, if_false]

/-! ### Characterisation of the repository-root walk -/

theorem findRepositoryRootAux_some_iff (fs : FSModel) :
    ∀ (n : Nat) (start r : String),
      findRepositoryRootAux fs n start = some r ↔
        ∃ k, k < n ∧ r = parentIter fs k start ∧
          fs.pathExists (fs.joinPath (parentIter fs k start) ".git") = true ∧
          (∀ j, j < k → fs.pathExists (fs.joinPath (parentIter fs j start) ".git") = false) ∧
          (∀ j, j < k → fs.dirname (parentIter fs j start) ≠ parentIter fs j start) := by
  intro n
  induction n with
  | zero =>
    intro start r
    simp only [findRepositoryRootAux]
    constructor
    · intro h; exact absurd h (by simp)
    · rintro ⟨k, hk, -⟩; omega
  | succ n ih =>
    intro start r
    cases hgit : fs.pathExists (fs.joinPath start ".git") with
    | true =>
      simp only [findRepositoryRootAux, hgit, if_true, Option.some.injEq]
      constructor
      · intro h
        subst h
        exact ⟨0, by omega, rfl, by simpa [parentIter] using hgit,
          by omega, by omega⟩
      · rintro ⟨k, hk, hr, hx, hall, hstep⟩
        cases k with
        | zero =>
          simp only [parentIter] at hr
          exact hr.symm
        | succ k =>
          have := hall 0 (by omega)
          simp only [parentIter] at this
          rw [this] at hgit
          exact absurd hgit (by simp)
    | false =>
      by_cases hpar : fs.dirname start = start
      · simp only [findRepositoryRootAux, hgit, Bool.false_eq_true, if_false, hpar, if_pos rfl]
        constructor
        · intro h; exact absurd h (by simp)
        · rintro ⟨k, hk, hr, hx, hall, hstep⟩
          cases k with
          | zero =>
            simp only [parentIter] at hx
            rw [hx] at hgit
            exact absurd hgit (by simp)
          | succ k =>
            exact absurd hpar (hstep 0 (by omega))
      · simp only [findRepositoryRootAux, hgit, Bool.false_eq_true, if_false, hpar, if_neg hpar]
        rw [ih (fs.dirname start) r]
        constructor
        · rintro ⟨k, hk, hr, hx, hall, hstep⟩
          refine ⟨k + 1, by omega, hr, hx, ?_, ?_⟩
          · intro j hj
            cases j with
            | zero => simpa [parentIter] using hgit
            | succ j => exact hall j (by omega)
          · intro j hj
            cases j with
            | zero => simpa [parentIter] using hpar
            | succ j => exact hstep j (by omega)
        · rintro ⟨k, hk, hr, hx, hall, hstep⟩
          cases k with
          | zero =>
            simp only [parentIter] at hx
            rw [hx] at hgit
            exact absurd hgit (by simp)
          | succ k =>
            refine ⟨k, by omega, hr, hx, ?_, ?_⟩
            · intro j hj; exact hall (j + 1) (by omega)
            · intro j hj; exact hstep (j + 1) (by omega)

/-! ### Prompt decomposition -/

theorem string_append_assoc (a b c : String) : a ++ b ++ c = a ++ (b ++ c) := by
  apply String.ext
  simp [string_data_append, List.append_assoc]

theorem gen_prompt_decomp (template : String) (commitInfo : CommitInfo)
    (sourceBranch targetBranch : String) (options : PromptOptions) :
    generatePromptWithTemplate template commitInfo sourceBranch targetBranch options =
      promptHeader template commitInfo sourceBranch targetBranch
        ++ (match options.context with
            | some ctx => if !ctx.data.isEmpty then contextSectionOf ctx else ""
            | none => "")
        ++ promptInstr
        ++ (if options.noEmojis then noEmojiSentence else "")
        ++ promptTail := by
  simp only [generatePromptWithTemplate, promptHeader, string_append_assoc]

/-! ### Claim theorems -/

/-- C1: with `preserve = false`, `processResponse` removes every
well-formed reasoning-marker pair (case-insensitively, non-greedily,
across newlines, every independent pair) and trims the result, while a
text with no closing marker anywhere is left untouched up to the final
trim; on the concrete input of the claim the result keeps order and the
surrounding double spaces exactly. -/
theorem c1_stripReasoning :
    (∀ a x b : List Char, containsCI openTag a = false →
        containsCI closeTag x = false →
        stripThink (a ++ openTag ++ x ++ closeTag ++ b) = a ++ stripThink b)
    ∧ (∀ s : String, containsCI closeTag s.data = false →
        processResponse s false = String.mk (trimL s.data))
    ∧ processResponse "A <think>x</think> B <think>y</think> C" false = "A  B  C"
    ∧ processResponse "a <THINK>q\nr</ThInK> b" false = "a  b" := by
  refine ⟨stripThink_removes, ?_, by decide, by decide⟩
  intro s h
  show String.mk (trimL (stripThink s.data)) = String.mk (trimL s.data)
  rw [stripThink_id_of_noClose s.data h]

/-- Witness for C1 at concrete inputs: one pair surrounded by plain text
is removed, and a marker-free text is only trimmed. -/
theorem c1_stripReasoning_witness :
    stripThink ("A ".data ++ openTag ++ "x".data ++ closeTag ++ " B".data) =
      "A ".data ++ stripThink " B".data
    ∧ processResponse "no markers here" false = String.mk (trimL "no markers here".data) :=
  ⟨c1_stripReasoning.1 "A ".data "x".data " B".data (by decide) (by decide),
   c1_stripReasoning.2.1 "no markers here" (by decide)⟩

/-- C8: with `preserve = true`, `processResponse` is the identity on
every input, reasoning markers and whitespace included. -/
theorem c8_preserve_identity :
    ∀ response : String, processResponse response true = response := by
  intro response
  rfl

/-- C10: marker stripping is a single left-to-right pass, not iterated
to a fixed point: on the spliced input the output still contains a
well-formed marker pair, and a second pass removes it, so stripping with
`preserve = false` is not idempotent. -/
theorem c10_single_pass_not_idempotent :
    processResponse "<thi<think>x</think>nk>y</think>" false = "<think>y</think>"
    ∧ processResponse "<think>y</think>" false = ""
    ∧ containsCI openTag
        (processResponse "<thi<think>x</think>nk>y</think>" false).data = true
    ∧ processResponse (processResponse "<thi<think>x</think>nk>y</think>" false) false
        ≠ processResponse "<thi<think>x</think>nk>y</think>" false := by
  refine ⟨by decide, by decide, by decide, by decide⟩

/-- C2 counterexample: on the input consisting of a bare heading-marker
line followed by an indented body line, the code substitutes the
placeholder title for the empty stripped title and trims the body,
while the claim as stated yields the empty title and the untrimmed
body. -/
theorem c2_counterexample :
    extractTitleAndBody "#\n  More text" ≠ extractTitleAndBodyClaim "#\n  More text"
    ∧ extractTitleAndBody "#\n  More text" =
        { title := "Auto-generated PR", body := "More text" }
    ∧ extractTitleAndBodyClaim "#\n  More text" =
        { title := "", body := "  More text" } := by
  refine ⟨by decide, by decide, by decide⟩

/-- C2 amended: `extractTitleAndBody` behaves as the claim states with
three refinements (the input is trimmed before splitting, an empty
stripped title also falls back to the placeholder, and the joined body
is trimmed); on the concrete claim example the conventional-commit
prefix is stripped. -/
theorem c2_extractTitleAndBody :
    (∀ msg : String, extractTitleAndBody msg = extractTitleAndBodySpec msg)
    ∧ extractTitleAndBody "feat: Add login\nMore text" =
        { title := "Add login", body := "More text" }
    ∧ extractTitleAndBody "" =
        { title := "Auto-generated PR", body := "No description provided" } := by
  refine ⟨?_, by decide, by decide⟩
  intro msg
  simp only [extractTitleAndBody, extractTitleAndBodySpec, scanTitle_eq]
  cases h : (splitNl (trimL msg.data)).dropWhile isBlankLine with
  | nil => simp [h, joinNl, trimL]
  | cons titleLine rest => simp [h]

theorem string_isEmpty_data (s : String) : s.data.isEmpty = true ↔ s = "" := by
  constructor
  · intro h
    apply String.ext
    cases hd : s.data with
    | nil => rfl
    | cons c cs => rw [hd] at h; simp at h
  · intro h; subst h; rfl

theorem containsL_eq_true_iff (pat : List Char) :
    ∀ s : List Char, containsL pat s = true ↔ pat <:+: s := by
  intro s
  induction s with
  | nil =>
    constructor
    · intro h
      have hp : pat = [] := by
        cases pat with
        | nil => rfl
        | cons p ps => simp [containsL] at h
      subst hp
      exact List.infix_refl []
    · intro h
      have hp : pat = [] := List.sublist_nil.mp h.sublist
      subst hp
      rfl
  | cons c cs ih =>
    simp only [containsL, Bool.or_eq_true]
    constructor
    · rintro (h | h)
      · exact (List.isPrefixOf_iff_prefix.mp h).isInfix
      · exact List.infix_cons (ih.mp h)
    · rintro ⟨pre, post, heq⟩
      cases pre with
      | nil =>
        left
        rw [List.isPrefixOf_iff_prefix]
        exact ⟨post, by simpa using heq⟩
      | cons d pre' =>
        right
        apply ih.mpr
        simp only [List.cons_append, List.cons.injEq] at heq
        exact ⟨pre', post, heq.2⟩

/-- C3: explicit-path resolution wins over inline content and any
discoverable repository template; a failing explicit path is a hard
error with no fallback; with nothing given and no discovered candidate
the built-in default is returned, and the default contains the keyword
Summary. -/
theorem c3_template_resolution :
    (∀ (fs : FSModel) (config : TemplateConfig) (p : String),
        config.templatePath = some p → p.data ≠ [] →
        loadTemplate fs config = loadFromPath fs p)
    ∧ (∀ (fs : FSModel) (p : String),
        fs.pathExists (resolveTemplatePath fs p) = false →
        ∃ e, loadFromPath fs p = Except.error e)
    ∧ (∀ (fs : FSModel) (config : TemplateConfig),
        optTruthy config.templatePath = false →
        optTruthy config.customTemplate = false →
        findGitHubTemplate fs = none →
        loadTemplate fs config = Except.ok getDefaultTemplate)
    ∧ containsL "Summary".data getDefaultTemplate.data = true := by
  refine ⟨?_, ?_, ?_, by decide⟩
  · intro fs config p h1 h2
    have hie : p.data.isEmpty = false := by
      cases hp : p.data with
      | nil => exact absurd hp h2
      | cons c cs => rfl
    simp [loadTemplate, optTruthy, h1, hie]
  · intro fs p h
    refine ⟨"Failed to load template from " ++ p
      ++ ": Template file not found: " ++ resolveTemplatePath fs p, ?_⟩
    simp [loadFromPath, h]
  · intro fs config h1 h2 h3
    simp [loadTemplate, h1, h2, h3]

/-- Witness for C3: in a filesystem with no repository, no readable
files and no discoverable template, an explicit path wins over inline
content and then hard-fails, while an empty configuration yields the
built-in default. -/
theorem c3_template_resolution_witness :
    loadTemplate fsNone { templatePath := some "tpl.md", customTemplate := some "inline" } =
      loadFromPath fsNone "tpl.md"
    ∧ (∃ e, loadFromPath fsNone "tpl.md" = Except.error e)
    ∧ loadTemplate fsNone { templatePath := none, customTemplate := none } =
        Except.ok getDefaultTemplate :=
  ⟨c3_template_resolution.1 fsNone _ "tpl.md" rfl (by decide),
   c3_template_resolution.2.1 fsNone "tpl.md" (by decide),
   c3_template_resolution.2.2.1 fsNone _ (by decide) (by decide) (by decide)⟩

theorem validateTemplate_spec : ∀ t : String,
    ((validateTemplate t).valid = true ↔ (validateTemplate t).issues = [])
    ∧ (validateTemplate t).issues.Sublist
        [templateEmptyMsg, templateTooLongMsg, templateSectionsMsg]
    ∧ (templateEmptyMsg ∈ (validateTemplate t).issues ↔
        (trimL t.data).isEmpty = true)
    ∧ (templateTooLongMsg ∈ (validateTemplate t).issues ↔ 10000 < t.length)
    ∧ (templateSectionsMsg ∈ (validateTemplate t).issues ↔
        (commonSections.any fun sec =>
          containsL sec.data (t.data.map Char.toLower)) = false) := by
  intro t
  have hc1 : (t.data.isEmpty || (trimL t.data).isEmpty) = (trimL t.data).isEmpty := by
    cases hd : t.data.isEmpty with
    | false => simp
    | true =>
      have hnil : t.data = [] := by
        cases hdata : t.data with
        | nil => rfl
        | cons c cs => rw [hdata] at hd; simp at hd
      rw [hnil]
      decide
  have hvalid : ((validateTemplate t).valid = true ↔ (validateTemplate t).issues = []) := by
    rw [show (validateTemplate t).valid = (validateTemplate t).issues.isEmpty from rfl]
    exact List.isEmpty_iff
  have hne12 : templateEmptyMsg ≠ templateTooLongMsg := by decide
  have hne13 : templateEmptyMsg ≠ templateSectionsMsg := by decide
  have hne23 : templateTooLongMsg ≠ templateSectionsMsg := by decide
  have hne21 : templateTooLongMsg ≠ templateEmptyMsg := by decide
  have hne31 : templateSectionsMsg ≠ templateEmptyMsg := by decide
  have hne32 : templateSectionsMsg ≠ templateTooLongMsg := by decide
  have hLdef : (validateTemplate t).issues =
      (if (trimL t.data).isEmpty = true then [templateEmptyMsg] else [])
      ++ (if 10000 < t.length then [templateTooLongMsg] else [])
      ++ (if (commonSections.any fun sec =>
            containsL sec.data (t.data.map Char.toLower)) = false
          then [templateSectionsMsg] else []) := by
    simp only [validateTemplate, hc1, Bool.not_eq_true']
  by_cases h2 : 10000 < t.length <;>
    cases h1 : (trimL t.data).isEmpty <;>
    cases h3 : (commonSections.any fun sec =>
      containsL sec.data (t.data.map Char.toLower)) <;>
    simp [h1, h2, h3] at hLdef <;>
    refine ⟨hvalid, by rw [hLdef]; try decide, ?_, ?_, ?_⟩ <;>
    rw [hLdef] <;>
    simp [h1, h2, h3, hne12, hne13, hne23, hne21, hne31, hne32]

/-- C4: the three validation issues are checked independently and
reported in the fixed order; the result is valid exactly when the issue
list is empty; a 10001-character template is reported as too long. -/
theorem c4_validateTemplate :
    (∀ t : String,
      ((validateTemplate t).valid = true ↔ (validateTemplate t).issues = [])
      ∧ (validateTemplate t).issues.Sublist
          [templateEmptyMsg, templateTooLongMsg, templateSectionsMsg]
      ∧ (templateEmptyMsg ∈ (validateTemplate t).issues ↔
          (trimL t.data).isEmpty = true)
      ∧ (templateTooLongMsg ∈ (validateTemplate t).issues ↔ 10000 < t.length)
      ∧ (templateSectionsMsg ∈ (validateTemplate t).issues ↔
          (commonSections.any fun sec =>
            containsL sec.data (t.data.map Char.toLower)) = false))
    ∧ templateTooLongMsg ∈ (validateTemplate xBig).issues := by
  refine ⟨validateTemplate_spec, ?_⟩
  have hlen : 10000 < xBig.length := by
    show 10000 < (List.replicate 10001 'x').length
    rw [List.length_replicate]
    norm_num
  exact ((validateTemplate_spec xBig).2.2.2.1).mpr hlen

theorem prompt_contains_messages (template : String) (ci : CommitInfo)
    (sb tb : String) (options : PromptOptions) :
    containsL ("=== COMMIT MESSAGES ===\n" ++ ci.messages).data
      (generatePromptWithTemplate template ci sb tb options).data = true := by
  rw [containsL_eq_true_iff]
  refine ⟨(promptIntro ++ template ++ "\n\nBRANCH INFO:\n- Source branch: " ++ sb
      ++ "\n- Target branch: " ++ tb ++ "\n\nGIT ANALYSIS:\n").data,
    ("\n\n=== FILE CHANGES SUMMARY ===\n" ++ ci.fileChanges
      ++ "\n\n=== DIFF STATISTICS ===\n" ++ ci.diffStats
      ++ "\n\n=== SAMPLE CODE CHANGES ===\n" ++ ci.codeSample
      ++ (match options.context with
          | some ctx => if !ctx.data.isEmpty then contextSectionOf ctx else ""
          | none => "")
      ++ promptInstr
      ++ (if options.noEmojis then noEmojiSentence else "")
      ++ promptTail).data, ?_⟩
  have hsplit : ("\n\nGIT ANALYSIS:\n=== COMMIT MESSAGES ===\n" : String) =
      "\n\nGIT ANALYSIS:\n" ++ "=== COMMIT MESSAGES ===\n" := by decide
  simp only [generatePromptWithTemplate, hsplit, string_data_append, List.append_assoc]

theorem prompt_contains_fileChanges (template : String) (ci : CommitInfo)
    (sb tb : String) (options : PromptOptions) :
    containsL ("=== FILE CHANGES SUMMARY ===\n" ++ ci.fileChanges).data
      (generatePromptWithTemplate template ci sb tb options).data = true := by
  rw [containsL_eq_true_iff]
  refine ⟨(promptIntro ++ template ++ "\n\nBRANCH INFO:\n- Source branch: " ++ sb
      ++ "\n- Target branch: " ++ tb ++ "\n\nGIT ANALYSIS:\n=== COMMIT MESSAGES ===\n"
      ++ ci.messages ++ "\n\n").data,
    ("\n\n=== DIFF STATISTICS ===\n" ++ ci.diffStats
      ++ "\n\n=== SAMPLE CODE CHANGES ===\n" ++ ci.codeSample
      ++ (match options.context with
          | some ctx => if !ctx.data.isEmpty then contextSectionOf ctx else ""
          | none => "")
      ++ promptInstr
      ++ (if options.noEmojis then noEmojiSentence else "")
      ++ promptTail).data, ?_⟩
  have hsplit : ("\n\n=== FILE CHANGES SUMMARY ===\n" : String) =
      "\n\n" ++ "=== FILE CHANGES SUMMARY ===\n" := by decide
  simp only [generatePromptWithTemplate, hsplit, string_data_append, List.append_assoc]

theorem prompt_contains_template (template : String) (ci : CommitInfo)
    (sb tb : String) (options : PromptOptions) :
    containsL template.data
      (generatePromptWithTemplate template ci sb tb options).data = true := by
  rw [containsL_eq_true_iff]
  refine ⟨promptIntro.data,
    ("\n\nBRANCH INFO:\n- Source branch: " ++ sb
      ++ "\n- Target branch: " ++ tb
      ++ "\n\nGIT ANALYSIS:\n=== COMMIT MESSAGES ===\n" ++ ci.messages
      ++ "\n\n=== FILE CHANGES SUMMARY ===\n" ++ ci.fileChanges
      ++ "\n\n=== DIFF STATISTICS ===\n" ++ ci.diffStats
      ++ "\n\n=== SAMPLE CODE CHANGES ===\n" ++ ci.codeSample
      ++ (match options.context with
          | some ctx => if !ctx.data.isEmpty then contextSectionOf ctx else ""
          | none => "")
      ++ promptInstr
      ++ (if options.noEmojis then noEmojiSentence else "")
      ++ promptTail).data, ?_⟩
  simp only [generatePromptWithTemplate, string_data_append, List.append_assoc]

/-- C5: the pipeline aborts with the no-changes error exactly when both
the commit messages and the file changes are empty; with non-empty
commit messages and empty file changes the diff still reaches the
composer, and the composed payload carries both the commit-messages
heading and the file-changes heading, each immediately followed by its
(possibly empty or fallback) field content. -/
theorem c5_noChangesDetected :
    (∀ (commitInfo : CommitInfo) (sourceBranch targetBranch : String),
        (∃ e, runDiffGate commitInfo sourceBranch targetBranch = Except.error e) ↔
          (commitInfo.messages = "" ∧ commitInfo.fileChanges = ""))
    ∧ (∀ (template : String) (commitInfo : CommitInfo)
          (sourceBranch targetBranch : String) (options : PromptOptions),
        commitInfo.messages ≠ "" →
        runPromptStage template commitInfo sourceBranch targetBranch options =
          Except.ok (generatePromptWithTemplate template commitInfo
            sourceBranch targetBranch options))
    ∧ (∀ (template : String) (commitInfo : CommitInfo)
          (sourceBranch targetBranch : String) (options : PromptOptions),
        containsL ("=== COMMIT MESSAGES ===\n" ++ commitInfo.messages).data
          (generatePromptWithTemplate template commitInfo
            sourceBranch targetBranch options).data = true
        ∧ containsL ("=== FILE CHANGES SUMMARY ===\n" ++ commitInfo.fileChanges).data
          (generatePromptWithTemplate template commitInfo
            sourceBranch targetBranch options).data = true) := by
  refine ⟨?_, ?_, ?_⟩
  · intro ci sb tb
    constructor
    · rintro ⟨e, he⟩
      by_cases hc : (ci.messages.data.isEmpty && ci.fileChanges.data.isEmpty) = true
      · rw [Bool.and_eq_true] at hc
        exact ⟨(string_isEmpty_data _).mp hc.1, (string_isEmpty_data _).mp hc.2⟩
      · simp [runDiffGate, hc] at he
    · rintro ⟨h1, h2⟩
      refine ⟨"No commits found between " ++ tb ++ " and " ++ sb, ?_⟩
      have hm : ci.messages.data.isEmpty = true := (string_isEmpty_data _).mpr h1
      have hf : ci.fileChanges.data.isEmpty = true := (string_isEmpty_data _).mpr h2
      simp [runDiffGate, hm, hf]
  · intro template ci sb tb options h
    have hm : ci.messages.data.isEmpty = false := by
      cases hb : ci.messages.data.isEmpty with
      | false => rfl
      | true => exact absurd ((string_isEmpty_data _).mp hb) h
    simp [runPromptStage, runDiffGate, hm]
  · intro template ci sb tb options
    exact ⟨prompt_contains_messages template ci sb tb options,
      prompt_contains_fileChanges template ci sb tb options⟩

/-- Witness for C5: a diff with non-empty commit messages and empty
file changes passes the gate and is composed into a prompt. -/
theorem c5_noChangesDetected_witness :
    runPromptStage "## Summary" ⟨"- feat: x", "", "stats", "code"⟩ "feature/x" "main"
        ⟨false, none⟩ =
      Except.ok (generatePromptWithTemplate "## Summary"
        ⟨"- feat: x", "", "stats", "code"⟩ "feature/x" "main" ⟨false, none⟩) :=
  c5_noChangesDetected.2.1 "## Summary" ⟨"- feat: x", "", "stats", "code"⟩
    "feature/x" "main" ⟨false, none⟩ (by decide)

/-- C6: prompt composition is deterministic string assembly with
exactly two conditionals: the additional-context section appears
between the diff data and the instructions exactly for a present,
non-empty context, the no-emoji sentence is appended exactly when
`noEmojis` is set, and everything else is a fixed frame around the
template, branch names and the four diff fields in fixed order; an
absent context and an empty context produce the same payload. -/
theorem c6_prompt_composition :
    (∀ (template : String) (commitInfo : CommitInfo)
        (sourceBranch targetBranch : String) (options : PromptOptions),
      generatePromptWithTemplate template commitInfo sourceBranch targetBranch options =
        promptHeader template commitInfo sourceBranch targetBranch
          ++ (match options.context with
              | some ctx => if !ctx.data.isEmpty then contextSectionOf ctx else ""
              | none => "")
          ++ promptInstr
          ++ (if options.noEmojis then noEmojiSentence else "")
          ++ promptTail)
    ∧ (∀ (template : String) (commitInfo : CommitInfo)
        (sourceBranch targetBranch : String) (e : Bool),
      generatePromptWithTemplate template commitInfo sourceBranch targetBranch ⟨e, none⟩ =
        generatePromptWithTemplate template commitInfo sourceBranch targetBranch
          ⟨e, some ""⟩) := by
  constructor
  · exact gen_prompt_decomp
  · intro template ci sb tb e
    rfl

/-- C7 counterexample: a 10001-character inline template resolves
verbatim and is embedded verbatim in the composed payload, so no
10,000-character cap is enforced on the template that enters the
payload. -/
theorem c7_counterexample :
    loadTemplate fsNone { templatePath := none, customTemplate := some xBig } =
      Except.ok xBig
    ∧ 10000 < xBig.length
    ∧ containsL xBig.data
        (generatePromptWithTemplate xBig ⟨"m", "f", "s", "c"⟩ "src" "tgt"
          ⟨false, none⟩).data = true := by
  refine ⟨?_, ?_, ?_⟩
  · have hne : xBig.data.isEmpty = false := by
      show (List.replicate 10001 'x').isEmpty = false
      simp [List.isEmpty_eq_false]
    simp [loadTemplate, optTruthy, hne]
  · show 10000 < (List.replicate 10001 'x').length
    rw [List.length_replicate]
    norm_num
  · exact prompt_contains_template xBig ⟨"m", "f", "s", "c"⟩ "src" "tgt" ⟨false, none⟩

/-- C7 amended: the two collector fields enforce their line caps (the
file-change summary is at most 20 lines, the code sample at most 100
lines, fallback texts included), while the 10,000-character template cap
is only reported as an issue by the separate `validateTemplate`
operation and is not enforced on resolved templates. -/
theorem c7_bounded_fields :
    (∀ (messagesRes changesRes statsRes diffRes : Option String),
        countLines (getCommitsInfo messagesRes changesRes statsRes diffRes).fileChanges ≤ 20
        ∧ countLines (getCommitsInfo messagesRes changesRes statsRes diffRes).codeSample ≤ 100)
    ∧ (∀ (fs : FSModel) (t : String), t.data ≠ [] →
        loadTemplate fs { templatePath := none, customTemplate := some t } = Except.ok t)
    ∧ (∀ t : String, 10000 < t.length →
        templateTooLongMsg ∈ (validateTemplate t).issues) := by
  refine ⟨?_, ?_, ?_⟩
  · intro messagesRes changesRes statsRes diffRes
    constructor
    · cases changesRes with
      | none =>
        show countLines "No file changes detected" ≤ 20
        decide
      | some changes =>
        show (splitNl (joinNl ((splitNl changes.data).take 20))).length ≤ 20
        exact countLines_le_of_take changes.data 20 (by norm_num)
    · cases diffRes with
      | none =>
        show countLines "No code changes available" ≤ 100
        decide
      | some diff =>
        show (splitNl (joinNl ((splitNl diff.data).take 100))).length ≤ 100
        exact countLines_le_of_take diff.data 100 (by norm_num)
  · intro fs t h
    have hie : t.data.isEmpty = false := by
      cases hp : t.data with
      | nil => exact absurd hp h
      | cons c cs => rfl
    simp [loadTemplate, optTruthy, hie]
  · intro t h
    exact ((validateTemplate_spec t).2.2.2.1).mpr h

/-- Witness for C7 at concrete inputs: a short inline template resolves
verbatim and the 10001-character template is flagged as too long. -/
theorem c7_bounded_fields_witness :
    loadTemplate fsNone { templatePath := none, customTemplate := some "## Summary" } =
      Except.ok "## Summary"
    ∧ templateTooLongMsg ∈ (validateTemplate xBig).issues :=
  ⟨c7_bounded_fields.2.1 fsNone "## Summary" (by decide),
   c7_bounded_fields.2.2 xBig (by
     show 10000 < (List.replicate 10001 'x').length
     rw [List.length_replicate]
     norm_num)⟩

/-- C9: the repository-root walk is a bounded upward traversal: it
returns a directory exactly when, within the cap of 10 levels and
before the parent chain stalls, that directory is the nearest ancestor
of the working directory containing the metadata directory; when no
root is found the candidate scan yields nothing (so an empty
configuration gets the built-in default) and an explicit relative path
resolves against the working directory. -/
theorem c9_repositoryRoot :
    (∀ (fs : FSModel) (r : String),
        findRepositoryRoot fs = some r ↔
          ∃ k, k < 10 ∧ r = parentIter fs k fs.cwd ∧
            fs.pathExists (fs.joinPath (parentIter fs k fs.cwd) ".git") = true ∧
            (∀ j, j < k →
              fs.pathExists (fs.joinPath (parentIter fs j fs.cwd) ".git") = false) ∧
            (∀ j, j < k →
              fs.dirname (parentIter fs j fs.cwd) ≠ parentIter fs j fs.cwd))
    ∧ (∀ fs : FSModel, findRepositoryRoot fs = none → findGitHubTemplate fs = none)
    ∧ (∀ (fs : FSModel) (config : TemplateConfig),
        findRepositoryRoot fs = none →
        optTruthy config.templatePath = false →
        optTruthy config.customTemplate = false →
        loadTemplate fs config = Except.ok getDefaultTemplate)
    ∧ (∀ (fs : FSModel) (p : String),
        findRepositoryRoot fs = none → startsWithSlash p = false →
        resolveTemplatePath fs p = fs.joinPath fs.cwd p) := by
  refine ⟨?_, ?_, ?_, ?_⟩
  · intro fs r
    exact findRepositoryRootAux_some_iff fs 10 fs.cwd r
  · intro fs h
    simp [findGitHubTemplate, h]
  · intro fs config h h1 h2
    have hg : findGitHubTemplate fs = none := by simp [findGitHubTemplate, h]
    simp [loadTemplate, h1, h2, hg]
  · intro fs p h hs
    simp [resolveTemplatePath, hs, h]

/-- Witness for C9 in a filesystem with no repository root: the
candidate scan yields nothing, the default template is used, and a
relative explicit path resolves against the working directory. -/
theorem c9_repositoryRoot_witness :
    findGitHubTemplate fsNone = none
    ∧ loadTemplate fsNone { templatePath := none, customTemplate := none } =
        Except.ok getDefaultTemplate
    ∧ resolveTemplatePath fsNone "tpl.md" = fsNone.joinPath fsNone.cwd "tpl.md" :=
  ⟨c9_repositoryRoot.2.1 fsNone (by decide),
   c9_repositoryRoot.2.2.1 fsNone { templatePath := none, customTemplate := none }
     (by decide) (by decide) (by decide),
   c9_repositoryRoot.2.2.2 fsNone "tpl.md" (by decide) (by decide)⟩

end Prfect
